import Mathlib

/-!
Shallow embedding of `src/sshtelnet.py` (class `SSHTelnetConnection`):
a telnet-first, ssh-fallback session client for network equipment.

Python strings are modelled as `List Char`; the two transport libraries
(telnetlib / paramiko) are external collaborators and are modelled at their
interface boundary: the telnet handle as a scripted oracle, the ssh channel
as an explicit state (`ChanState`) driving `recv_ready` / `select` / `recv`.
Console `print` calls are not modelled (they carry no program state).
-/

namespace SshTelnet

/-- `startsWith needle hay` : `needle` is a prefix of `hay`
(character-by-character, as Python string comparison would see it). -/
def startsWith : List Char → List Char → Bool
  | [], _ => true
  | _ :: _, [] => false
  | a :: as, b :: bs => a == b && startsWith as bs

/-- Python's substring test `needle in hay` on strings. -/
def containsSub (needle : List Char) : List Char → Bool
  | [] => needle.isEmpty
  | c :: t => startsWith needle (c :: t) || containsSub needle t

/-- The `ConnType` enumeration class: integer constants, as in the source. -/
def c_none : Nat := 0

/-- `ConnType.c_telnet`. -/
def c_telnet : Nat := 1

/-- `ConnType.c_ssh`. -/
def c_ssh : Nat := 2

/-- `ConnType.c_fail`. -/
def c_fail : Nat := 255

/-- State of the paramiko interactive-shell channel, seen through the three
primitives the code uses: `recv_ready()` (true iff bytes are buffered),
`select.select` (readable iff a pending batch arrives or the peer has closed,
i.e. EOF makes the socket readable), `recv(1)` (pop one buffered byte).
`pending` is the schedule of future data arrivals, one batch per poll;
`closed` records that the peer sends EOF after all pending data. -/
structure ChanState where
  buffered : List Char
  pending : List (List Char)
  closed : Bool
deriving DecidableEq, Repr

/-- `ssh_conn.recv_ready()`: paramiko returns `True` iff the in-buffer is
non-empty (it returns `False` at EOF with an empty buffer). -/
def recv_ready (c : ChanState) : Bool := !c.buffered.isEmpty

/-- Outcome of one `select.select([ssh_conn], [], [], timeout?)` call. -/
inductive SelRes where
  | readable
  | timedOut
  | blocked
deriving DecidableEq, Repr

/-- One readiness poll. A pending batch arrives and makes the channel
readable; with nothing pending, a closed (EOF) channel is permanently
readable; otherwise the poll times out when a timeout was given, and blocks
forever when called without one. -/
def selectPoll (c : ChanState) (tmo : Option ℚ) : ChanState × SelRes :=
  match c.pending with
  | b :: rest => ({ c with buffered := c.buffered ++ b, pending := rest }, .readable)
  | [] =>
    if c.closed then (c, .readable)
    else if tmo.isSome then (c, .timedOut) else (c, .blocked)

/-- The inner `while ssh_conn.recv_ready():` loop of `read_until`: pop one
buffered byte at a time (`recv(1)`; with bytes buffered it always yields a
char, so the `if char: ... else: break` guard's break arm never fires),
append it to the accumulated text, and test `string in ret` after every
byte. Returns `(remaining buffer, accumulated text, matched?)`. -/
def drainList (pat : List Char) (acc : List Char) : List Char → List Char × List Char × Bool
  | [] => ([], acc, false)
  | c :: rest =>
    if containsSub pat (acc ++ [c]) then (rest, acc ++ [c], true)
    else drainList pat (acc ++ [c]) rest

/-- Result of a `read_until` call. -/
inductive ReadOut where
  /-- the method returned this string -/
  | str (cs : List Char)
  /-- the method fell off the end and returned `None` -/
  | noneV
  /-- `UnboundLocalError`: `r_l` referenced before assignment -/
  | unbound
  /-- the loop was still running after `fuel` iterations (with a blocked
  or endlessly re-readable poll this holds for every fuel: divergence) -/
  | fuelOut
deriving DecidableEq, Repr

/-- The `while ssh_conn:` loop of `read_until` on the ssh path, fuel-indexed.
`rList` models the local variable `r_l`: `none` while it is still
unassigned, `some b` once a select has run (`b` = "`ssh_conn in r_l`").
Each iteration: skip the poll when `recv_ready()` is already true, else
poll; then `if ssh_conn in r_l` (an unassigned `r_l` raises
`UnboundLocalError`); on readable, drain buffered bytes and return on a
substring match; on not-readable, `break` and return the accumulation. -/
def sshLoop (pat : List Char) (tmo : Option ℚ) :
    Nat → Option Bool → List Char → ChanState → ChanState × ReadOut
  | 0, _, _, c => (c, .fuelOut)
  | fuel + 1, rList, acc, c =>
    match
      (if recv_ready c then (c, some rList)
       else
         match selectPoll c tmo with
         | (c', .readable) => (c', some (some true))
         | (c', .timedOut) => (c', some (some false))
         | (c', .blocked) => (c', (none : Option (Option Bool)))) with
    | (c1, none) => (c1, .fuelOut)
    | (c1, some none) => (c1, .unbound)
    | (c1, some (some false)) => (c1, .str acc)
    | (c1, some (some true)) =>
      match drainList pat acc c1.buffered with
      | (rem, acc2, true) => ({ c1 with buffered := rem }, .str acc2)
      | (rem, acc2, false) => sshLoop pat tmo fuel (some true) acc2 { c1 with buffered := rem }

/-- The telnet collaborator handle (`self.tel_conn`): whether the socket is
open, the bytes written through it, and a scripted oracle of responses its
native `read_until` will produce. -/
structure TelHandle where
  isOpen : Bool
  sent : List (List Char)
  responses : List (List Char)
deriving DecidableEq, Repr

/-- The ssh interactive-shell handle (`self.ssh_conn`): channel state plus
the bytes written through `send`. -/
structure SshChan where
  chan : ChanState
  sent : List (List Char)
deriving DecidableEq, Repr

/-- The kinds of messages the code passes to `log_to` (their formatted text
is opaque to the logic; all of them are non-empty strings). -/
inductive LogMsg where
  | openTelnet
  | telnetFail
  | sockErr
  | openSsh
  | sshErr
deriving DecidableEq, Repr

/-- The `SSHTelnetConnection` instance state. `log` records the messages
actually written to the log sink; `hasLogFile` is `log_file is not None`;
`sshTransportOpen` is whether the `paramiko.SSHClient` (`ssh_conn_t`) holds
a live, connected transport. -/
structure Session where
  host : List Char
  user : List Char
  passwd : List Char
  logging : Bool
  hasLogFile : Bool
  log : List LogMsg
  conn_type : Nat
  tel_conn : Option TelHandle
  sshTransportOpen : Bool
  ssh_conn : Option SshChan
  debug : Bool
deriving DecidableEq, Repr

/-- `__init__(host, user, password)`. -/
def mkSession (host user passwd : List Char) : Session :=
  { host := host, user := user, passwd := passwd, logging := false,
    hasLogFile := false, log := [], conn_type := c_none, tel_conn := none,
    sshTransportOpen := false, ssh_conn := none, debug := false }

/-- `log_to(message)`: append to the sink only when logging is enabled and a
log file is set (every message the code passes is non-empty, so the
`message != ""` guard is always satisfied for them). -/
def log_to (s : Session) (m : LogMsg) : Session :=
  if s.logging && s.hasLogFile then { s with log := s.log ++ [m] } else s

/-- Where the telnet connection attempt of `connect()` fails, if it does:
`openFail` = the `telnetlib.Telnet(...)` constructor raises
(socket.error / gaierror; `tel_conn` keeps its previous value),
`handshakeFail` = the constructor succeeded (`tel_conn` now holds an open
socket) but a later handshake step raises (modelled at the earliest such
step, `read_until("Username:")` hitting EOF, so nothing was written yet). -/
inductive TelnetOutcome where
  | openFail
  | handshakeFail
  | success
deriving DecidableEq, Repr

/-- Where the ssh attempt of `connect()` fails, if it does: `connectFail` =
`ssh_conn_t.connect(...)` raises (no transport established), `shellFail` =
`connect` succeeded (transport now open) but `invoke_shell()` raises. -/
inductive SshOutcome where
  | connectFail
  | shellFail
  | success
deriving DecidableEq, Repr

/-- A transport the fallback connector actually attempted. -/
inductive Transport where
  | telnet
  | ssh
deriving DecidableEq, Repr

def newline : List Char := ['\n']

/-- `connect()`: reset `conn_type` to `c_none`, try telnet (log the attempt,
open, handshake `Username:`/`Password:`, send user and password), and on
success return `c_telnet` immediately; on any telnet exception set
`c_fail`, log, and fall through to the ssh attempt (log, password-only
`connect` to port 22, `invoke_shell`), returning `c_ssh` on success and
`c_fail` otherwise. Also returns the list of transports attempted, in
order. -/
def connect (s : Session) (t : TelnetOutcome) (so : SshOutcome) :
    Session × Nat × List Transport :=
  let s0 := log_to { s with conn_type := c_none } .openTelnet
  let s1 : Session :=
    match t with
    | .openFail => log_to { s0 with conn_type := c_fail } .sockErr
    | .handshakeFail =>
      log_to { s0 with tel_conn := some ⟨true, [], []⟩, conn_type := c_fail } .telnetFail
    | .success =>
      { s0 with
        tel_conn := some ⟨true, [s.user ++ newline, s.passwd ++ newline], []⟩,
        conn_type := c_telnet }
  if s1.conn_type == c_telnet then (s1, s1.conn_type, [.telnet])
  else
    let s2 := log_to s1 .openSsh
    let s3 : Session :=
      match so with
      | .connectFail => log_to { s2 with conn_type := c_fail } .sshErr
      | .shellFail =>
        log_to { s2 with sshTransportOpen := true, conn_type := c_fail } .sshErr
      | .success =>
        { s2 with sshTransportOpen := true,
                  ssh_conn := some ⟨⟨[], [], false⟩, []⟩, conn_type := c_ssh }
    (s3, s3.conn_type, [.telnet, .ssh])

/-- `is_connected()`. -/
def is_connected (s : Session) : Bool :=
  s.conn_type == c_telnet || s.conn_type == c_ssh

/-- `read_until(string, timeout)`: on the telnet path delegate to the
handle's native read-until (the collaborator, modelled as popping the next
scripted response; with `tel_conn` still `None` the attribute access would
raise — out of the claims' reach, modelled as returning the session
unchanged with an empty string). On the ssh path, `while ssh_conn:` skips
the whole loop when `ssh_conn` is `None` (returning `"".join([])`),
otherwise runs `sshLoop` with `r_l` unassigned and an empty buffer. Any
other `conn_type` falls off the end of the method and returns `None`. -/
def read_until (s : Session) (pat : List Char) (tmo : Option ℚ) (fuel : Nat) :
    Session × ReadOut :=
  if s.conn_type == c_telnet then
    match s.tel_conn with
    | none => (s, .str [])
    | some h =>
      match h.responses with
      | [] => (s, .str [])
      | r :: rest => ({ s with tel_conn := some { h with responses := rest } }, .str r)
  else if s.conn_type == c_ssh then
    match s.ssh_conn with
    | none => (s, .str [])
    | some ch =>
      match sshLoop pat tmo fuel none [] ch.chan with
      | (c', out) => ({ s with ssh_conn := some { ch with chan := c' } }, out)
  else (s, .noneV)

/-- `write(string)`: dispatch to the active transport's write; a
`socket.error` (modelled by `sockOk = false`) is caught, printed and
logged. With neither transport active the method body has no `else`
branch, so the call does nothing at all. -/
def write (s : Session) (data : List Char) (sockOk : Bool) : Session :=
  if s.conn_type == c_telnet then
    match s.tel_conn with
    | none => s
    | some h =>
      if sockOk then { s with tel_conn := some { h with sent := h.sent ++ [data] } }
      else log_to s .sockErr
  else if s.conn_type == c_ssh then
    match s.ssh_conn with
    | none => s
    | some ch =>
      if sockOk then { s with ssh_conn := some { ch with sent := ch.sent ++ [data] } }
      else log_to s .sockErr
  else s

/-- `close()`: close the active transport handle and set `conn_type` to
`c_none`; a `socket.error` is caught and logged, leaving the state as it
was. With neither transport active the method does nothing. (On the ssh
path the code closes `ssh_conn_t`, the client, which tears down the
transport; the `ssh_conn` channel field itself is left assigned.) -/
def close (s : Session) (sockOk : Bool) : Session :=
  if s.conn_type == c_telnet then
    match s.tel_conn with
    | none => s
    | some h =>
      if sockOk then
        { s with tel_conn := some { h with isOpen := false }, conn_type := c_none }
      else log_to s .sockErr
  else if s.conn_type == c_ssh then
    if sockOk then { s with sshTransportOpen := false, conn_type := c_none }
    else log_to s .sockErr
  else s

/-- The fixed paging-suppression command `"terminal length 0\n"`. -/
def pagingCmd : List Char := "terminal length 0\n".toList

/-- One recorded `read_until` call site: its pattern and timeout arguments. -/
structure RUCall where
  pat : List Char
  tmo : Option ℚ
deriving DecidableEq, Repr

/-- `disable_paging()`: on the active transport, write
`"terminal length 0\n"` directly through the handle and then call
`self.read_until(self.host + "#", 30.0)`, discarding its result; a
`socket.error` during the send (modelled by `sendOk = false`) is caught
and logged and the `read_until` is skipped. Also returns the list of
`read_until` calls made (pattern, timeout). -/
def disable_paging (s : Session) (sendOk : Bool) (fuel : Nat) :
    Session × List RUCall :=
  if s.conn_type == c_telnet then
    match s.tel_conn with
    | none => (s, [])
    | some h =>
      if sendOk then
        let s1 := { s with tel_conn := some { h with sent := h.sent ++ [pagingCmd] } }
        ((read_until s1 (s.host ++ ['#']) (some 30) fuel).1, [⟨s.host ++ ['#'], some 30⟩])
      else (log_to s .sockErr, [])
  else if s.conn_type == c_ssh then
    match s.ssh_conn with
    | none => (s, [])
    | some ch =>
      if sendOk then
        let s1 := { s with ssh_conn := some { ch with sent := ch.sent ++ [pagingCmd] } }
        ((read_until s1 (s.host ++ ['#']) (some 30) fuel).1, [⟨s.host ++ ['#'], some 30⟩])
      else (log_to s .sockErr, [])
  else (s, [])

/-- The handle the telnet side holds, if any, is an open socket. -/
def telOpen (s : Session) : Bool := (s.tel_conn.map TelHandle.isOpen).getD false

/-- The bytes written so far through the active transport's handle. -/
def activeSent (s : Session) : List (List Char) :=
  if s.conn_type == c_telnet then (s.tel_conn.map TelHandle.sent).getD []
  else if s.conn_type == c_ssh then (s.ssh_conn.map SshChan.sent).getD []
  else []

/-- The handle/state invariant claimed by the specification's data model:
`Failed`/`Unconnected` imply no transport adapter handle is open;
`ConnectedLegacy`/`ConnectedEncrypted` imply the corresponding handle is
present and open. -/
def stateHandleInv (s : Session) : Prop :=
  ((s.conn_type = c_none ∨ s.conn_type = c_fail) →
    telOpen s = false ∧ s.sshTransportOpen = false) ∧
  (s.conn_type = c_telnet → telOpen s = true) ∧
  (s.conn_type = c_ssh → s.ssh_conn.isSome ∧ s.sshTransportOpen = true)

/-! ### Concrete sessions used by the claim theorems -/

/-- A concrete ssh session whose channel already has a byte buffered. -/
def bufferedSshSession : Session :=
  { mkSession ['h'] ['u'] ['p'] with
    conn_type := c_ssh
    sshTransportOpen := true
    ssh_conn := some ⟨⟨['z'], [], false⟩, []⟩ }

/-- A concrete not-connected session with logging enabled and a sink set. -/
def loggingUnconnectedSession : Session :=
  { mkSession ['h'] ['u'] ['p'] with
    logging := true
    hasLogFile := true }

/-- A concrete connected (telnet) session with an open handle. -/
def connectedTelnetSession : Session :=
  { mkSession ['h'] ['u'] ['p'] with
    conn_type := c_telnet
    tel_conn := some ⟨true, [], []⟩ }

def fooL : List Char := ['f', 'o', 'o']

def barL : List Char := ['b', 'a', 'r']

/-- A connected ssh session whose channel becomes readable with the single
byte stream `"foo" ++ p ++ "bar"`, delivered for byte-at-a-time reads. -/
def streamSession (p : List Char) : Session :=
  { mkSession ['h'] ['u'] ['p'] with
    conn_type := c_ssh
    sshTransportOpen := true
    ssh_conn := some ⟨⟨[], [fooL ++ p ++ barL], false⟩, []⟩ }

/-- A connected ssh session whose channel delivers `batches` one poll at a
time and then stays silent until the poll times out. -/
def silentSession (batches : List (List Char)) : Session :=
  { mkSession ['h'] ['u'] ['p'] with
    conn_type := c_ssh
    sshTransportOpen := true
    ssh_conn := some ⟨⟨[], batches, false⟩, []⟩ }

/-- A connected ssh session whose channel delivers `batches` and whose peer
then closes the channel (EOF). -/
def closedSession (batches : List (List Char)) : Session :=
  { mkSession ['h'] ['u'] ['p'] with
    conn_type := c_ssh
    sshTransportOpen := true
    ssh_conn := some ⟨⟨[], batches, true⟩, []⟩ }

/-! ### Substring-test lemmas -/

@[simp]
theorem startsWith_self : ∀ p : List Char, startsWith p p = true
  | [] => rfl
  | a :: as => by simp [startsWith, startsWith_self as]

theorem startsWith_append_of (b : List Char) :
    ∀ p a : List Char, startsWith p a = true → startsWith p (a ++ b) = true := by
  intro p
  induction p with
  | nil => intro a _; cases a <;> simp [startsWith]
  | cons x xs ih =>
    intro a h
    cases a with
    | nil => simp [startsWith] at h
    | cons y ys =>
      simp only [startsWith, Bool.and_eq_true, beq_iff_eq] at h
      simp [startsWith, h.1, ih ys h.2]

@[simp]
theorem containsSub_nil_left : ∀ l : List Char, containsSub [] l = true
  | [] => rfl
  | _ :: _ => by simp [containsSub, startsWith]

theorem containsSub_append_right (b : List Char) :
    ∀ a p : List Char, containsSub p a = true → containsSub p (a ++ b) = true := by
  intro a
  induction a with
  | nil =>
    intro p h
    simp only [containsSub, List.isEmpty_iff] at h
    subst h
    simp
  | cons c t ih =>
    intro p h
    simp only [containsSub, Bool.or_eq_true] at h ⊢
    rcases h with h | h
    · exact Or.inl (startsWith_append_of b p (c :: t) h)
    · exact Or.inr (ih p h)

theorem containsSub_self : ∀ p : List Char, containsSub p p = true
  | [] => rfl
  | c :: t => by simp [containsSub]

theorem containsSub_append_left (p : List Char) :
    ∀ a t : List Char, containsSub p t = true → containsSub p (a ++ t) = true := by
  intro a
  induction a with
  | nil => intro t h; simpa using h
  | cons c cs ih =>
    intro t h
    simp only [List.cons_append, containsSub, Bool.or_eq_true]
    exact Or.inr (ih t h)

/-! ### Drain-loop lemmas -/

/-- When the pattern never occurs in the whole accumulation, the inner drain
loop consumes every buffered byte and reports no match. -/
theorem drainList_no_match (p : List Char) :
    ∀ buf acc : List Char, containsSub p (acc ++ buf) = false →
      drainList p acc buf = ([], acc ++ buf, false) := by
  intro buf
  induction buf with
  | nil => intro acc _; simp [drainList]
  | cons c rest ih =>
    intro acc h
    have hstep : containsSub p (acc ++ [c]) = false := by
      by_contra hc
      rw [Bool.not_eq_false] at hc
      have := containsSub_append_right rest (acc ++ [c]) p hc
      rw [List.append_assoc] at this
      simp only [List.singleton_append] at this
      rw [h] at this
      exact Bool.false_ne_true this
    have h' : containsSub p ((acc ++ [c]) ++ rest) = false := by
      rw [List.append_assoc]
      simpa using h
    simp only [drainList, hstep, Bool.false_eq_true, if_false, ih (acc ++ [c]) h']
    simp

/-- When the pattern first occurs in the accumulation exactly at the end of
`acc ++ u` (it occurs there, and in no shorter extension of `acc`), the
inner drain loop returns at that byte, leaving `v` unread. -/
theorem drainList_first_match (p : List Char) :
    ∀ u acc v : List Char, u ≠ [] →
      containsSub p (acc ++ u) = true →
      (∀ k, k < u.length → containsSub p (acc ++ u.take k) = false) →
      drainList p acc (u ++ v) = (v, acc ++ u, true) := by
  intro u
  induction u with
  | nil => intro acc v h; exact absurd rfl h
  | cons c u' ih =>
    intro acc v _ hmatch hmin
    cases u' with
    | nil =>
      have hm : containsSub p (acc ++ [c]) = true := by simpa using hmatch
      rw [List.singleton_append, drainList, hm, if_pos rfl]
    | cons d u'' =>
      have hstep : containsSub p (acc ++ [c]) = false := by
        have := hmin 1 (by simp)
        simpa using this
      have hrec := ih (acc ++ [c]) v (by simp)
        (by rw [List.append_assoc]; simpa using hmatch)
        (by
          intro k hk
          have := hmin (k + 1) (by simpa using Nat.succ_lt_succ hk)
          rw [List.append_assoc]
          simpa using this)
      rw [List.cons_append, drainList, hstep]
      rw [if_neg (by simp)]
      rw [hrec]
      simp

/-! ### Loop lemmas for the ssh path of `read_until` -/

/-- One-step unfolding of `sshLoop` at positive fuel. -/
theorem sshLoop_succ (p : List Char) (tmo : Option ℚ) (fuel : Nat)
    (rList : Option Bool) (acc : List Char) (c : ChanState) :
    sshLoop p tmo (fuel + 1) rList acc c =
      match
        (if recv_ready c then (c, some rList)
         else
           match selectPoll c tmo with
           | (c', .readable) => (c', some (some true))
           | (c', .timedOut) => (c', some (some false))
           | (c', .blocked) => (c', (none : Option (Option Bool)))) with
      | (c1, none) => (c1, .fuelOut)
      | (c1, some none) => (c1, .unbound)
      | (c1, some (some false)) => (c1, .str acc)
      | (c1, some (some true)) =>
        match drainList p acc c1.buffered with
        | (rem, acc2, true) => ({ c1 with buffered := rem }, .str acc2)
        | (rem, acc2, false) => sshLoop p tmo fuel (some true) acc2 { c1 with buffered := rem } :=
  rfl

/-- With bytes already buffered when the loop is entered with `r_l` still
unassigned, the very first iteration skips the poll and then evaluates
`ssh_conn in r_l`: `UnboundLocalError`. -/
theorem sshLoop_unbound (p : List Char) (tmo : Option ℚ) (fuel : Nat)
    (acc : List Char) (c : ChanState) (h : recv_ready c = true) :
    sshLoop p tmo (fuel + 1) none acc c = (c, .unbound) := by
  rw [sshLoop_succ]
  simp [h]

/-- A channel that delivers `batches` (one batch per poll, never containing
the pattern) and then stays silent: each poll consumes one batch, the final
poll times out, and the loop returns everything accumulated. -/
theorem sshLoop_timeout (p : List Char) (t : ℚ) :
    ∀ (batches : List (List Char)) (acc : List Char) (rList : Option Bool),
      containsSub p (acc ++ batches.flatten) = false →
      sshLoop p (some t) (batches.length + 1) rList acc ⟨[], batches, false⟩
        = (⟨[], [], false⟩, .str (acc ++ batches.flatten)) := by
  intro batches
  induction batches with
  | nil =>
    intro acc rList _
    simp [sshLoop, recv_ready, selectPoll]
  | cons b rest ih =>
    intro acc rList h
    have hassoc : containsSub p ((acc ++ b) ++ rest.flatten) = false := by
      rw [List.append_assoc]
      simpa using h
    have hnb : containsSub p (acc ++ b) = false := by
      by_contra hc
      rw [Bool.not_eq_false] at hc
      have := containsSub_append_right rest.flatten (acc ++ b) p hc
      rw [this] at hassoc
      simp at hassoc
    have hd : drainList p acc b = ([], acc ++ b, false) :=
      drainList_no_match p b acc hnb
    have hrec := ih (acc ++ b) (some true) hassoc
    simp only [List.length_cons]
    rw [sshLoop_succ]
    simp [recv_ready, selectPoll, hd, hrec, List.append_assoc]

/-- A channel whose peer has closed (EOF) never lets the loop exit: the
poll always reports the channel readable, `recv_ready()` is false once the
buffer is drained, and no timeout ever fires — the loop spins forever
(for every fuel the loop is still running). -/
theorem sshLoop_closed (p : List Char) (tmo : Option ℚ) :
    ∀ (fuel : Nat) (batches : List (List Char)) (acc : List Char) (rList : Option Bool),
      containsSub p (acc ++ batches.flatten) = false →
      (sshLoop p tmo fuel rList acc ⟨[], batches, true⟩).2 = .fuelOut := by
  intro fuel
  induction fuel with
  | zero => intro batches acc rList _; rfl
  | succ fuel ih =>
    intro batches acc rList h
    cases batches with
    | nil =>
      have hd : drainList p acc ([] : List Char) = ([], acc, false) := rfl
      have hrec := ih [] acc (some true) h
      rw [sshLoop_succ]
      simpa [recv_ready, selectPoll, hd] using hrec
    | cons b rest =>
      have hassoc : containsSub p ((acc ++ b) ++ rest.flatten) = false := by
        rw [List.append_assoc]
        simpa using h
      have hnb : containsSub p (acc ++ b) = false := by
        by_contra hc
        rw [Bool.not_eq_false] at hc
        have := containsSub_append_right rest.flatten (acc ++ b) p hc
        rw [this] at hassoc
        simp at hassoc
      have hd : drainList p acc b = ([], acc ++ b, false) :=
        drainList_no_match p b acc hnb
      have hrec := ih rest (acc ++ b) (some true) hassoc
      rw [sshLoop_succ]
      simpa [recv_ready, selectPoll, hd] using hrec

/-- A channel that becomes readable with one batch whose prefix of length
`u.length` is the first point where the pattern occurs: the loop returns
exactly `acc ++ u` and leaves the rest of the batch unread in the buffer. -/
theorem sshLoop_first_match (p : List Char) (tmo : Option ℚ) (fuel : Nat)
    (u v : List Char) (hu : u ≠ [])
    (hmatch : containsSub p u = true)
    (hmin : ∀ k, k < u.length → containsSub p (u.take k) = false) :
    sshLoop p tmo (fuel + 1) none [] ⟨[], [u ++ v], false⟩
      = (⟨v, [], false⟩, .str u) := by
  have hd : drainList p [] (u ++ v) = (v, u, true) := by
    have := drainList_first_match p u [] v hu (by simpa using hmatch)
      (by intro k hk; simpa using hmin k hk)
    simpa using this
  rw [sshLoop_succ]
  simp [recv_ready, selectPoll, hd]

/-! ### Small projection lemmas -/

@[simp]
theorem log_to_conn_type (s : Session) (m : LogMsg) : (log_to s m).conn_type = s.conn_type := by
  rw [log_to]; split <;> rfl

@[simp]
theorem log_to_tel_conn (s : Session) (m : LogMsg) : (log_to s m).tel_conn = s.tel_conn := by
  rw [log_to]; split <;> rfl

@[simp]
theorem log_to_sshTransportOpen (s : Session) (m : LogMsg) :
    (log_to s m).sshTransportOpen = s.sshTransportOpen := by
  rw [log_to]; split <;> rfl

@[simp]
theorem log_to_ssh_conn (s : Session) (m : LogMsg) : (log_to s m).ssh_conn = s.ssh_conn := by
  rw [log_to]; split <;> rfl

@[simp]
theorem log_to_host (s : Session) (m : LogMsg) : (log_to s m).host = s.host := by
  rw [log_to]; split <;> rfl

/-- Dispatch of `read_until` on an active ssh session. -/
theorem read_until_ssh (s : Session) (ch : SshChan) (pat : List Char) (tmo : Option ℚ)
    (fuel : Nat) (hc : s.conn_type = c_ssh) (hch : s.ssh_conn = some ch) :
    read_until s pat tmo fuel =
      ({ s with ssh_conn := some { ch with chan := (sshLoop pat tmo fuel none [] ch.chan).1 } },
       (sshLoop pat tmo fuel none [] ch.chan).2) := by
  have hb1 : (s.conn_type == c_telnet) = false := by simp [hc, c_ssh, c_telnet]
  have hb2 : (s.conn_type == c_ssh) = true := by simp [hc]
  rcases hsl : sshLoop pat tmo fuel none [] ch.chan with ⟨c', out⟩
  simp [read_until, hb1, hb2, hch, hsl]

/-! ### Claim theorems -/

/-- Claim C1: whenever the legacy (telnet) open and login handshake both
succeed, `connect()` returns `ConnectedLegacy` (`c_telnet`), stores that
state, and the encrypted (ssh) transport is never attempted. -/
theorem connect_legacy_success_no_ssh_attempt (s : Session) (so : SshOutcome) :
    (connect s .success so).2.1 = c_telnet ∧
    (connect s .success so).1.conn_type = c_telnet ∧
    (connect s .success so).2.2 = [Transport.telnet] ∧
    Transport.ssh ∉ (connect s .success so).2.2 := by
  simp [connect]

/-- Claim C2: whenever the legacy attempt fails (at open or during the
handshake), the encrypted transport is attempted next; `connect()` returns
`ConnectedEncrypted` (`c_ssh`) when that attempt succeeds, and returns
`Failed` (`c_fail`) with `is_connected()` false when it also fails. -/
theorem connect_legacy_fail_ssh_fallback (s : Session) (t : TelnetOutcome)
    (so : SshOutcome) (ht : t ≠ TelnetOutcome.success) :
    (connect s t so).2.2 = [Transport.telnet, Transport.ssh] ∧
    (so = SshOutcome.success →
      (connect s t so).2.1 = c_ssh ∧ (connect s t so).1.conn_type = c_ssh) ∧
    (so ≠ SshOutcome.success →
      (connect s t so).2.1 = c_fail ∧ (connect s t so).1.conn_type = c_fail ∧
      is_connected (connect s t so).1 = false) := by
  cases t with
  | success => exact absurd rfl ht
  | openFail => cases so <;> simp [connect, is_connected, c_fail, c_ssh, c_telnet]
  | handshakeFail => cases so <;> simp [connect, is_connected, c_fail, c_ssh, c_telnet]

/-- Witness for C2 at a concrete input. -/
theorem connect_legacy_fail_ssh_fallback_witness :
    (connect (mkSession ['h'] ['u'] ['p']) .openFail .success).2.2
        = [Transport.telnet, Transport.ssh] ∧
    (SshOutcome.success = SshOutcome.success →
      (connect (mkSession ['h'] ['u'] ['p']) .openFail .success).2.1 = c_ssh ∧
      (connect (mkSession ['h'] ['u'] ['p']) .openFail .success).1.conn_type = c_ssh) ∧
    (SshOutcome.success ≠ SshOutcome.success →
      (connect (mkSession ['h'] ['u'] ['p']) .openFail .success).2.1 = c_fail ∧
      (connect (mkSession ['h'] ['u'] ['p']) .openFail .success).1.conn_type = c_fail ∧
      is_connected (connect (mkSession ['h'] ['u'] ['p']) .openFail .success).1 = false) :=
  connect_legacy_fail_ssh_fallback (mkSession ['h'] ['u'] ['p']) .openFail .success (by decide)

/-- Claim C10: with neither transport active, `read_until` performs no
transport I/O (the session is unchanged) and falls off the end of the
method, returning `None`. -/
theorem read_until_unconnected_none (s : Session) (pat : List Char) (tmo : Option ℚ)
    (fuel : Nat) (h1 : s.conn_type ≠ c_telnet) (h2 : s.conn_type ≠ c_ssh) :
    read_until s pat tmo fuel = (s, .noneV) := by
  have hb1 : (s.conn_type == c_telnet) = false := by simp [h1]
  have hb2 : (s.conn_type == c_ssh) = false := by simp [h2]
  simp [read_until, hb1, hb2]

/-- Witness for C10 at a concrete input. -/
theorem read_until_unconnected_none_witness :
    read_until (mkSession ['h'] ['u'] ['p']) ['#'] (some 1) 5
      = (mkSession ['h'] ['u'] ['p'], .noneV) :=
  read_until_unconnected_none (mkSession ['h'] ['u'] ['p']) ['#'] (some 1) 5
    (by decide) (by decide)

/-- Claim C9: on the encrypted path, when the channel already reports bytes
ready to receive on the very first loop iteration, the readiness check
skips the `select` call and `r_l` is then read before it was ever
assigned: the call fails with `UnboundLocalError` instead of returning
text. Such a state is reachable, e.g. bytes left buffered by an earlier
`read_until` that returned on a match. -/
theorem read_until_recv_ready_unbound (s : Session) (ch : SshChan)
    (pat : List Char) (tmo : Option ℚ) (fuel : Nat)
    (hc : s.conn_type = c_ssh) (hch : s.ssh_conn = some ch)
    (hb : ch.chan.buffered ≠ []) :
    (read_until s pat tmo (fuel + 1)).2 = .unbound := by
  have hr : recv_ready ch.chan = true := by
    simp [recv_ready, List.isEmpty_iff, hb]
  rw [read_until_ssh s ch pat tmo (fuel + 1) hc hch]
  simp [sshLoop_unbound pat tmo fuel [] ch.chan hr]

/-- Witness for C9 at a concrete input. -/
theorem read_until_recv_ready_unbound_witness :
    (read_until bufferedSshSession ['#'] (some 1) 1).2 = .unbound :=
  read_until_recv_ready_unbound bufferedSshSession
    ⟨⟨['z'], [], false⟩, []⟩ ['#'] (some 1) 0 rfl rfl (by decide)

/-- Claim C6 (amended): with neither transport active, `write` performs no
transport write and is silently ignored — and, contrary to the claim,
nothing is logged either: the method body has no `else` branch, so the
session is left completely unchanged. -/
theorem write_unconnected_noop (s : Session) (data : List Char) (sockOk : Bool)
    (h1 : s.conn_type ≠ c_telnet) (h2 : s.conn_type ≠ c_ssh) :
    write s data sockOk = s := by
  have hb1 : (s.conn_type == c_telnet) = false := by simp [h1]
  have hb2 : (s.conn_type == c_ssh) = false := by simp [h2]
  simp [write, hb1, hb2]

/-- Witness for the amended C6 at a concrete input. -/
theorem write_unconnected_noop_witness :
    write loggingUnconnectedSession ['x'] true = loggingUnconnectedSession :=
  write_unconnected_noop loggingUnconnectedSession ['x'] true (by decide) (by decide)

/-- Counterexample to C6 as stated: a not-connected session with logging
enabled and a log sink set; the ignored `write` call leaves the log (and
everything else) unchanged, so the claim's "the ignored call is logged"
is false. -/
theorem write_unconnected_not_logged_cex :
    is_connected loggingUnconnectedSession = false ∧
    loggingUnconnectedSession.logging = true ∧
    loggingUnconnectedSession.hasLogFile = true ∧
    (write loggingUnconnectedSession ['x'] true).log = [] := by
  decide

/-- Claim C7: a successful `close()` of a connected session (the adapter
close is dispatched and raises nothing) leaves the state `Unconnected`
(`c_none`), and a second `close()` immediately afterwards dispatches to no
adapter at all — for any transport behavior it returns the session
unchanged, so it cannot crash and the state stays `Unconnected`. -/
theorem close_idempotent (s : Session) (h : is_connected s = true)
    (hh : s.conn_type = c_telnet → s.tel_conn.isSome = true) :
    (close s true).conn_type = c_none ∧
    (∀ b, close (close s true) b = close s true) := by
  have hor : s.conn_type = c_telnet ∨ s.conn_type = c_ssh := by
    simpa [is_connected, c_telnet, c_ssh] using h
  rcases hor with h1 | h1
  · rcases Option.isSome_iff_exists.mp (hh h1) with ⟨th, hth⟩
    have hc : close s true =
        { s with tel_conn := some { th with isOpen := false }, conn_type := c_none } := by
      simp [close, h1, hth]
    rw [hc]
    refine ⟨rfl, fun b => ?_⟩
    simp [close, c_none, c_telnet, c_ssh]
  · have hc : close s true =
        { s with sshTransportOpen := false, conn_type := c_none } := by
      simp [close, h1, c_telnet, c_ssh]
    rw [hc]
    refine ⟨rfl, fun b => ?_⟩
    simp [close, c_none, c_telnet, c_ssh]

/-- Witness for C7 at a concrete input. -/
theorem close_idempotent_witness :
    (close connectedTelnetSession true).conn_type = c_none ∧
    (∀ b, close (close connectedTelnetSession true) b = close connectedTelnetSession true) :=
  close_idempotent connectedTelnetSession (by decide) (by decide)

/-- Counterexample to C5 as stated: run `connect()` on a fresh session with
a legacy attempt whose open succeeds but whose login handshake then fails
(and a failing encrypted attempt). The final state is `Failed`, yet the
telnet handle created by the successful open is still open — the code
never closes it — so the claimed handle/state invariant is violated. -/
theorem connect_handshake_fail_violates_inv :
    (connect (mkSession ['h'] ['u'] ['p']) .handshakeFail .connectFail).1.conn_type = c_fail ∧
    telOpen (connect (mkSession ['h'] ['u'] ['p']) .handshakeFail .connectFail).1 = true ∧
    ¬ stateHandleInv (connect (mkSession ['h'] ['u'] ['p']) .handshakeFail .connectFail).1 := by
  refine ⟨by decide, by decide, fun hinv => ?_⟩
  have := (hinv.1 (Or.inr (by decide))).1
  rw [show telOpen (connect (mkSession ['h'] ['u'] ['p'])
      .handshakeFail .connectFail).1 = true by decide] at this
  simp at this

/-- Claim C5 (amended): starting from a session with no open transport
handle, one `connect()` call yields a state classified as claimed for the
connected outcomes (`ConnectedLegacy`/`ConnectedEncrypted` imply the
corresponding handle is present and open). For the non-connected outcomes
the claimed "no handle open" part holds only with two exceptions the code
creates: after a legacy open that succeeded but whose handshake then
failed, the telnet handle remains open; and after an encrypted `connect`
that succeeded but whose shell request then failed, the encrypted
transport remains open. -/
theorem connect_handle_states (s : Session) (t : TelnetOutcome) (so : SshOutcome)
    (htel : telOpen s = false) (hssh : s.sshTransportOpen = false) :
    ((connect s t so).1.conn_type = c_telnet ↔ t = .success) ∧
    (t = .success → telOpen (connect s t so).1 = true) ∧
    (t ≠ .success → ((connect s t so).1.conn_type = c_ssh ↔ so = .success)) ∧
    (t ≠ .success → so = .success →
      (connect s t so).1.sshTransportOpen = true ∧ (connect s t so).1.ssh_conn.isSome = true) ∧
    (is_connected (connect s t so).1 = false →
      ((telOpen (connect s t so).1 = true ↔ t = .handshakeFail) ∧
       ((connect s t so).1.sshTransportOpen = true ↔ (t ≠ .success ∧ so = .shellFail)))) := by
  simp only [telOpen] at htel
  cases t <;> cases so <;>
    simp [connect, is_connected, telOpen, c_none, c_telnet, c_ssh, c_fail, htel, hssh]

/-- Witness for the amended C5 at a concrete input. -/
theorem connect_handle_states_witness :
    ((connect (mkSession ['h'] ['u'] ['p']) .handshakeFail .shellFail).1.conn_type = c_telnet
        ↔ TelnetOutcome.handshakeFail = .success) ∧
    (TelnetOutcome.handshakeFail = .success →
      telOpen (connect (mkSession ['h'] ['u'] ['p']) .handshakeFail .shellFail).1 = true) ∧
    (TelnetOutcome.handshakeFail ≠ .success →
      ((connect (mkSession ['h'] ['u'] ['p']) .handshakeFail .shellFail).1.conn_type = c_ssh
        ↔ SshOutcome.shellFail = .success)) ∧
    (TelnetOutcome.handshakeFail ≠ .success → SshOutcome.shellFail = .success →
      (connect (mkSession ['h'] ['u'] ['p']) .handshakeFail .shellFail).1.sshTransportOpen = true ∧
      (connect (mkSession ['h'] ['u'] ['p']) .handshakeFail .shellFail).1.ssh_conn.isSome = true) ∧
    (is_connected (connect (mkSession ['h'] ['u'] ['p']) .handshakeFail .shellFail).1 = false →
      ((telOpen (connect (mkSession ['h'] ['u'] ['p']) .handshakeFail .shellFail).1 = true
          ↔ TelnetOutcome.handshakeFail = .handshakeFail) ∧
       ((connect (mkSession ['h'] ['u'] ['p']) .handshakeFail .shellFail).1.sshTransportOpen = true
          ↔ (TelnetOutcome.handshakeFail ≠ .success ∧ SshOutcome.shellFail = .shellFail)))) :=
  connect_handle_states (mkSession ['h'] ['u'] ['p']) .handshakeFail .shellFail
    (by decide) (by decide)

/-! ### Claims about `read_until` on the encrypted byte-at-a-time path -/

/-- Counterexample to C3 as stated: for the pattern `"o"` the stream is
`"fooobar"`, and the first point at which the pattern is a substring of
the accumulation is `"fo"` — the call returns `"fo"`, not
`"foo" ++ "o" = "fooo"`. -/
theorem read_until_first_match_cex :
    (read_until (streamSession ['o']) ['o'] (some 1) 1).2 = .str ['f', 'o'] ∧
    ['f', 'o'] ≠ fooL ++ ['o'] := by
  decide

/-- Claim C3 (amended): on the byte-at-a-time path fed
`"foo" ++ pattern ++ "bar"`, the call checks for the pattern as a
substring after each appended byte and returns at the first match without
reading further bytes; the result is exactly `"foo" ++ pattern` whenever
the pattern is non-empty and does not already occur in a proper prefix of
`"foo" ++ pattern` (a pattern that occurs earlier — e.g. `"o"`, or the
empty pattern — yields that shorter first-matching prefix instead). The
unread `"bar"` is left in the channel buffer. -/
theorem read_until_ssh_first_match (p : List Char) (fuel : Nat) (t : ℚ)
    (hmin : ∀ k, k < (fooL ++ p).length → containsSub p ((fooL ++ p).take k) = false) :
    read_until (streamSession p) p (some t) (fuel + 1)
      = ({ streamSession p with ssh_conn := some ⟨⟨barL, [], false⟩, []⟩ },
         .str (fooL ++ p)) := by
  have hmatch : containsSub p (fooL ++ p) = true :=
    containsSub_append_left p fooL p (containsSub_self p)
  have hne : fooL ++ p ≠ [] := by simp [fooL]
  have hl := sshLoop_first_match p (some t) fuel (fooL ++ p) barL hne hmatch hmin
  rw [read_until_ssh (streamSession p) ⟨⟨[], [fooL ++ p ++ barL], false⟩, []⟩
    p (some t) (fuel + 1) rfl rfl]
  simp only [List.append_assoc] at hl ⊢
  simp [hl]

/-- Witness for the amended C3 at a concrete input. -/
theorem read_until_ssh_first_match_witness :
    read_until (streamSession ['b', 'a', 'z']) ['b', 'a', 'z'] (some 1) 1
      = ({ streamSession ['b', 'a', 'z'] with ssh_conn := some ⟨⟨barL, [], false⟩, []⟩ },
         .str (fooL ++ ['b', 'a', 'z'])) :=
  read_until_ssh_first_match ['b', 'a', 'z'] 0 1 (by decide)

/-- Counterexample to C4 as stated: on a channel that is closed before the
pattern appears, the call does not return the accumulated bytes — for
every fuel the loop is still running (the EOF socket stays readable, the
buffer stays empty, and no timeout ever fires), i.e. it diverges. -/
theorem read_until_closed_diverges_cex :
    (∀ fuel : Nat, (read_until (closedSession []) ['x'] (some 1) fuel).2 = .fuelOut) ∧
    ReadOut.fuelOut ≠ ReadOut.str [] := by
  constructor
  · intro fuel
    have hl := sshLoop_closed ['x'] (some 1) fuel [] [] none (by decide)
    rw [read_until_ssh (closedSession []) ⟨⟨[], [], true⟩, []⟩ ['x'] (some 1) fuel rfl rfl]
    simpa using hl
  · decide

/-- Claim C4 (amended): when the readiness poll times out before the
pattern appears, `read_until` returns the (possibly empty) bytes
accumulated so far as a normal text value; but when the channel is closed
before the pattern appears, the loop never exits — it spins re-polling the
EOF-readable channel — so no value is returned at all. -/
theorem read_until_ssh_timeout_partial :
    (∀ (p : List Char) (t : ℚ) (batches : List (List Char)),
      containsSub p batches.flatten = false →
      read_until (silentSession batches) p (some t) (batches.length + 1)
        = ({ silentSession batches with ssh_conn := some ⟨⟨[], [], false⟩, []⟩ },
           .str batches.flatten)) ∧
    (∀ (p : List Char) (tmo : Option ℚ) (batches : List (List Char)) (fuel : Nat),
      containsSub p batches.flatten = false →
      (read_until (closedSession batches) p tmo fuel).2 = .fuelOut) := by
  constructor
  · intro p t batches h
    have hl := sshLoop_timeout p t batches [] none (by simpa using h)
    rw [read_until_ssh (silentSession batches) ⟨⟨[], batches, false⟩, []⟩
      p (some t) (batches.length + 1) rfl rfl]
    simp [hl]
  · intro p tmo batches fuel h
    have hl := sshLoop_closed p tmo fuel batches [] none (by simpa using h)
    rw [read_until_ssh (closedSession batches) ⟨⟨[], batches, true⟩, []⟩
      p tmo fuel rfl rfl]
    simpa using hl

/-- Witness for the amended C4 at a concrete input. -/
theorem read_until_ssh_timeout_partial_witness :
    read_until (silentSession [['a'], ['b']]) ['x', 'y'] (some 2)
        (([['a'], ['b']] : List (List Char)).length + 1)
      = ({ silentSession [['a'], ['b']] with ssh_conn := some ⟨⟨[], [], false⟩, []⟩ },
         .str ([['a'], ['b']] : List (List Char)).flatten) :=
  read_until_ssh_timeout_partial.1 ['x', 'y'] 2 [['a'], ['b']] (by decide)

/-- Claim C8: on a connected session (with its transport handle present and
the send raising no socket error), `disable_paging()` sends exactly the
literal bytes `"terminal length 0\n"` to the active transport and then
makes exactly one `read_until` call, with pattern `host ++ "#"` and
timeout `30.0`, discarding its result. -/
theorem disable_paging_sends_and_reads (s : Session) (fuel : Nat)
    (h : is_connected s = true)
    (hht : s.conn_type = c_telnet → s.tel_conn.isSome = true)
    (hhs : s.conn_type = c_ssh → s.ssh_conn.isSome = true) :
    (disable_paging s true fuel).2 = [⟨s.host ++ ['#'], some 30⟩] ∧
    activeSent (disable_paging s true fuel).1 = activeSent s ++ [pagingCmd] := by
  have hor : s.conn_type = c_telnet ∨ s.conn_type = c_ssh := by
    simpa [is_connected, c_telnet, c_ssh] using h
  rcases hor with h1 | h1
  · rcases Option.isSome_iff_exists.mp (hht h1) with ⟨th, hth⟩
    obtain ⟨op, snt, resp⟩ := th
    constructor
    · simp [disable_paging, h1, hth, c_telnet, c_ssh]
    · cases resp with
      | nil =>
        simp [disable_paging, read_until, activeSent, h1, hth, c_telnet, c_ssh]
      | cons r rest =>
        simp [disable_paging, read_until, activeSent, h1, hth, c_telnet, c_ssh]
  · rcases Option.isSome_iff_exists.mp (hhs h1) with ⟨ch, hch⟩
    have hru := read_until_ssh
      { s with ssh_conn := some { ch with sent := ch.sent ++ [pagingCmd] } }
      { ch with sent := ch.sent ++ [pagingCmd] }
      (s.host ++ ['#']) (some 30) fuel (by simpa using h1) (by simp)
    simp only [h1, c_ssh] at hru
    constructor
    · simp [disable_paging, h1, hch, c_telnet, c_ssh]
    · simp [disable_paging, activeSent, h1, hch, c_telnet, c_ssh, hru]

/-- Witness for C8 at a concrete input. -/
theorem disable_paging_sends_and_reads_witness :
    (disable_paging connectedTelnetSession true 1).2
        = [⟨connectedTelnetSession.host ++ ['#'], some 30⟩] ∧
    activeSent (disable_paging connectedTelnetSession true 1).1
        = activeSent connectedTelnetSession ++ [pagingCmd] :=
  disable_paging_sends_and_reads connectedTelnetSession 1 (by decide) (by decide) (by decide)

end SshTelnet
